import Mathlib

/-!
Verification of `microinclude.js` (MattToegel/micro-include).

The repository ships three evolving versions of the custom-element include
engine in `src/docs/microinclude.js`:

* version 0.2.1 (first block): `connectedCallback` resolves the `src`
  attribute against `document.querySelector('base')?.href || window.location.origin`
  inside a try/catch, dedups on the raw attribute string, optionally runs
  `executeScripts` (gated on `allow-scripts`), then `replaceWith`.
* version 0.2.2 (second block): resolves outside the try/catch (full-URL
  shaped attributes are used verbatim), dedups on the raw attribute but
  records the resolved URL, and `_insertContent` always loads external
  scripts sequentially, then replaces the placeholder with the
  script-stripped nodes, then injects inline scripts at the remembered
  position; there is no `allow-scripts` gate in this version.
* a second block also stamped 0.2.1 (third block, lines 343-468): the same
  pipeline body as the first block, but the `src` attribute is resolved
  before the try/catch — full-URL shaped sources verbatim, root-relative
  sources by string concatenation (`<base>` href, GitHub-Pages repository
  segment, or origin), anything else via `new URL(src, document.baseURI)`
  — and the dedup check is keyed on the resolved URL.

All three are shallowly embedded below as pure functions over an environment
record that models the external collaborators (the browser URL constructor,
`fetch`, the DOM parser, DOMPurify, script loading).  Runs return the final
registries, an outcome, and a trace of observable events, over which the
ordering and error-handling claims are stated.
-/

namespace MicroInclude

/-- A node of a parsed HTML fragment, as far as the include engine inspects
it: script elements carrying a `src` attribute, inline script elements, and
all other (inert) content. -/
inductive Node where
  | text (s : String)
  | extScript (src : String)
  | inlineScript (code : String)
deriving DecidableEq

/-- Terminal result of `connectedCallback` for one placeholder. -/
inductive Outcome where
  | errorShown
  | skippedDuplicate
  | included
  | uncaught
deriving DecidableEq

/-- Observable events emitted while a placeholder is processed. -/
inductive Ev where
  | fetchIssued (url : String)
  | sanitized
  | warned
  | extLoadStart (url : String)
  | extSettled (url : String) (ok : Bool)
  | inlineExec (code : String)
  | replaced (ns : List Node)
  | errorRendered
  | consoleError
deriving DecidableEq

/-- A character matched by the regex class `\w`. -/
def isWordChar (c : Char) : Bool := c.isAlphanum || c = '_'

/-- Does the first list occur as an initial segment of the second? -/
def startsL : List Char → List Char → Bool
  | [], _ => true
  | _ :: _, [] => false
  | p :: ps, c :: cs => p == c && startsL ps cs

/-- Embedding of the test on line 187/359 of the source:
`/^\w+:\/\//.test(src) || src.startsWith("//")`.  Since `:` is not a word
character, the regex matches exactly when the maximal `\w` run at the start
is nonempty and is followed by the literal `://`. -/
def isFullUrl (s : String) : Bool :=
  let w := s.data.takeWhile isWordChar
  let rest := s.data.drop w.length
  (decide (w ≠ []) && decide (rest.take 3 = [':', '/', '/'])) || startsL ['/', '/'] s.data

/-- A character allowed in a URL scheme after the first letter. -/
def isSchemeChar (c : Char) : Bool := c.isAlphanum || c = '+' || c = '-' || c = '.'

/-- The first character of a candidate scheme must be a letter. -/
def schemeHeadAlpha : List Char → Bool
  | c :: _ => c.isAlpha
  | [] => false

/-- Host part of a scheme-stripped URL: everything up to the first `/`. -/
def hostOf (hp : List Char) : List Char := hp.takeWhile (fun c => c ≠ '/')

/-- Path part of a scheme-stripped URL: from its first `/` (possibly empty). -/
def pathOf (hp : List Char) : List Char := hp.dropWhile (fun c => c ≠ '/')

/-- The path through its last `/`. -/
def takeThroughLastSlash (p : List Char) : List Char :=
  ((p.reverse).dropWhile (fun c => c ≠ '/')).reverse

/-- The directory of a path; an empty path normalizes to `/`. -/
def dirOfPath (p : List Char) : List Char :=
  if p.contains '/' then takeThroughLastSlash p else ['/']

/-- Split an absolute http(s) URL into scheme and host-plus-path. -/
def splitBaseL (u : List Char) : Option (List Char × List Char) :=
  if startsL "https://".data u then some ("https://".data, u.drop 8)
  else if startsL "http://".data u then some ("http://".data, u.drop 7)
  else none

/-- Model of the browser `new URL(input, base).href` primitive (an external
capability of the hosting environment, outside this repository), restricted
to the http(s) URLs exercised in this development: an input with a scheme
and authority is kept verbatim unless its authority contains a space (a
forbidden host code point, on which the WHATWG parser fails and the
constructor throws); protocol-relative inputs take the https scheme;
root-relative inputs join the base's origin; other inputs join the base's
directory. -/
def urlResolveDemo (input base : String) : Option String :=
  let ic := input.data
  let sch := ic.takeWhile isSchemeChar
  let rest := ic.drop sch.length
  if schemeHeadAlpha sch && startsL [':', '/', '/'] rest then
    (if ((rest.drop 3).takeWhile (fun c => c ≠ '/')).contains ' ' then none
     else some input)
  else if startsL ['/', '/'] ic then some ("https:" ++ input)
  else
    match splitBaseL base.data with
    | none => none
    | some (scheme, hp) =>
      if startsL ['/'] ic then some (String.mk (scheme ++ hostOf hp ++ ic))
      else some (String.mk (scheme ++ hostOf hp ++ dirOfPath (pathOf hp) ++ ic))

/-- Model of `new URL(input, base).origin`: the origin of the resolved URL;
`none` where the constructor throws. -/
def urlOriginDemo (input base : String) : Option String :=
  match urlResolveDemo input base with
  | none => none
  | some u =>
    match splitBaseL u.data with
    | some (scheme, hp) => some (String.mk (scheme ++ hostOf hp))
    | none => some "null"

/-- A `<micro-include>` placeholder: its `src` attribute (absent when the
attribute is missing) and the three boolean-presence modifier attributes. -/
structure Placeholder where
  src : Option String
  multiple : Bool
  allowUntrusted : Bool
  allowScripts : Bool

/-- The hosting environment seen by the include engine: document/location
state and the external capabilities (URL constructor, fetch, HTML parser,
optional DOMPurify, script loading, the page's existing script elements).
`fetchBody url = some body` models a fetch whose response is `ok`; `none`
models both a non-2xx response and a transport error (either makes the
pipeline throw). -/
structure Env where
  baseURI : String
  origin : String
  hostname : String
  pathname : String
  baseTagHref : Option String
  resolveUrl : String → String → Option String
  urlOriginOf : String → String → Option String
  fetchBody : String → Option String
  purify : Option (String → String)
  parseHtml : String → List Node
  scriptLoadOk : String → Bool
  docScripts : List String

/-- The module-level mutable registries: `MicroInclude.includedSources` and
(in version 0.2.2) `MicroInclude.loadedScripts`. -/
structure St where
  includedSources : List String
  loadedScripts : List String
deriving DecidableEq

/-- Result of running `connectedCallback` on one placeholder: final
registries, the outcome, the trace of the main control flow, and (version
0.2.1 only) the trace of the un-awaited `executeScripts` call, which
interleaves asynchronously with the tail of the main flow. -/
structure RunRes where
  st : St
  outcome : Outcome
  evs : List Ev
  scriptEvs : List Ev

/-- Embedding of `sanitizeHtml` (lines 109-116 / 288-295): apply DOMPurify
when present; otherwise warn and return the text unchanged. -/
def sanitizeHtml (env : Env) (html : String) : String × List Ev :=
  match env.purify with
  | some f => (f html, [Ev.sanitized])
  | none => (html, [Ev.warned])

/-- Embedding of `isExternalReference` (lines 118-124): compare the origin
of the resolved source with the page origin; a parse failure is caught and
yields `false`. -/
def isExternalReference (env : Env) (src : String) : Bool :=
  match env.urlOriginOf src env.baseURI with
  | some o => o != env.origin
  | none => false

/-- Embedding of line 61 / 197: sanitize exactly when the placeholder lacks
`allow-untrusted` and the source is an external reference. -/
def gatedHtml (env : Env) (ph : Placeholder) (isExt : Bool) (body : String) :
    String × List Ev :=
  if !ph.allowUntrusted && isExt then sanitizeHtml env body else (body, [])

/-- Embedding of `showError` (lines 126-128): the markup assigned to the
shadow root, a total function (the assignment cannot throw). -/
def showError (message : String) : String :=
  "<p style=\x22color: red;\x22>" ++ message ++ "</p>"

/-- Is this fragment node a script element? -/
def isScriptNode : Node → Bool
  | Node.extScript _ => true
  | Node.inlineScript _ => true
  | Node.text _ => false

/-- `querySelectorAll("script")` over a fragment, in document order. -/
def scriptsOf (ns : List Node) : List Node := ns.filter isScriptNode

/-- The fragment with all script elements removed, order preserved. -/
def stripScripts (ns : List Node) : List Node := ns.filter (fun n => !isScriptNode n)

/-- `querySelectorAll('script[src]')`: the `src` attributes of the external
scripts, in document order. -/
def externalSrcs (ns : List Node) : List String :=
  ns.filterMap (fun n => match n with | Node.extScript s => some s | _ => none)

/-- `querySelectorAll('script:not([src])')`: the bodies of the inline
scripts, in document order. -/
def inlineCodes (ns : List Node) : List String :=
  ns.filterMap (fun n => match n with | Node.inlineScript c => some c | _ => none)

/-- Embedding of version 0.2.1 `executeScripts` (lines 77-95): walk the
fragment's scripts in document order; an external script is loaded with
`await` (a rejected load rethrows out of the un-awaited async function, so
the loop stops there); an inline script is appended, executing immediately. -/
def execScriptsV1 (env : Env) : List Node → List Ev
  | [] => []
  | Node.extScript s :: rest =>
    if env.scriptLoadOk s then
      Ev.extLoadStart s :: Ev.extSettled s true :: execScriptsV1 env rest
    else
      [Ev.extLoadStart s, Ev.extSettled s false]
  | Node.inlineScript c :: rest => Ev.inlineExec c :: execScriptsV1 env rest
  | Node.text _ :: rest => execScriptsV1 env rest

/-- Embedding of line 45: `document.querySelector('base')?.href || window.location.origin`. -/
def baseV1 (env : Env) : String := env.baseTagHref.getD env.origin

/-- Embedding of line 53: `new URL(src, base).href` with version 0.2.1's
choice of base. -/
def resolveV1 (env : Env) (src : String) : Option String :=
  env.resolveUrl src (baseV1 env)

/-- Embedding of version 0.2.1 `connectedCallback` (lines 40-75): missing
`src` renders an error; the dedup check consults the raw attribute; the
URL is resolved inside the try/catch (a parse failure is caught and
reported); a failed fetch is caught and reported; on success the gated
html is parsed, `executeScripts` is started (not awaited) when
`allow-scripts` is present, the placeholder is replaced, and the raw
attribute is added to `includedSources`. -/
def runV1 (env : Env) (st : St) (ph : Placeholder) : RunRes :=
  match ph.src with
  | none => ⟨st, Outcome.errorShown, [Ev.errorRendered], []⟩
  | some src =>
    if !ph.multiple && st.includedSources.contains src then
      ⟨st, Outcome.skippedDuplicate, [], []⟩
    else
      match resolveV1 env src with
      | none => ⟨st, Outcome.errorShown, [Ev.errorRendered, Ev.consoleError], []⟩
      | some srcUrl =>
        match env.fetchBody srcUrl with
        | none =>
          ⟨st, Outcome.errorShown,
            [Ev.fetchIssued srcUrl, Ev.errorRendered, Ev.consoleError], []⟩
        | some body =>
          let g := gatedHtml env ph (isExternalReference env srcUrl) body
          ⟨⟨src :: st.includedSources, st.loadedScripts⟩, Outcome.included,
            Ev.fetchIssued srcUrl :: g.2,
            if ph.allowScripts then execScriptsV1 env (scriptsOf (env.parseHtml g.1)) else []⟩

/-- Result of the external-script phase of version 0.2.2 `_insertContent`:
the updated `loadedScripts` registry, the emitted events, and whether the
phase completed without throwing (`new URL(src, baseUrl)` on a script's
`src` can throw, which propagates out of `_insertContent`). -/
structure LoadRes where
  loaded : List String
  evs : List Ev
  ok : Bool

/-- Embedding of the external-script loop of `_insertContent` (lines
243-259): resolve each script `src` against the fragment's URL, skip those
already in `loadedScripts` or among the document's scripts, otherwise load
sequentially; a load failure is caught per script (logged, loop continues);
a successful load records the URL in `loadedScripts`. -/
def loadExternalsV2 (env : Env) (baseUrl : String) :
    List String → List String → LoadRes
  | loaded, [] => ⟨loaded, [], true⟩
  | loaded, s :: rest =>
    match env.resolveUrl s baseUrl with
    | none => ⟨loaded, [], false⟩
    | some r =>
      if loaded.contains r || env.docScripts.contains r then
        loadExternalsV2 env baseUrl loaded rest
      else if env.scriptLoadOk r then
        let t := loadExternalsV2 env baseUrl (r :: loaded) rest
        ⟨t.loaded, Ev.extLoadStart r :: Ev.extSettled r true :: t.evs, t.ok⟩
      else
        let t := loadExternalsV2 env baseUrl loaded rest
        ⟨t.loaded, Ev.extLoadStart r :: Ev.extSettled r false :: Ev.consoleError :: t.evs, t.ok⟩

/-- Embedding of version 0.2.2 `_insertContent` (lines 233-271): strip all
scripts from the parsed fragment, load the external scripts sequentially,
then replace the placeholder with the remaining nodes, then inject the
inline scripts at the remembered position, in fragment order. -/
def insertContentV2 (env : Env) (loaded : List String) (nodes : List Node)
    (baseUrl : String) : LoadRes :=
  let L := loadExternalsV2 env baseUrl loaded (externalSrcs nodes)
  if L.ok then
    ⟨L.loaded,
      L.evs ++ Ev.replaced (stripScripts nodes) :: (inlineCodes nodes).map Ev.inlineExec,
      true⟩
  else ⟨L.loaded, L.evs, false⟩

/-- Embedding of the inline-script injection of `_insertContent` (lines
265-270) as a document transformation: the document around the placeholder
is `pre ++ [placeholder] ++ post`; after `replaceWith` the middle is the
script-stripped fragment, and each `parent.insertBefore(newScript, nextSibling)`
places the next inline script just before `post`. -/
def injectInlines (pre : List Node) (mid : List Node) (post : List Node) :
    List String → List Node
  | [] => pre ++ mid ++ post
  | c :: rest => injectInlines pre (mid ++ [Node.inlineScript c]) post rest

/-- The live document after a successful version 0.2.2 insertion, starting
from `pre ++ [placeholder] ++ post`. -/
def domAfterInsertV2 (pre post : List Node) (nodes : List Node) : List Node :=
  injectInlines pre (stripScripts nodes) post (inlineCodes nodes)

/-- Embedding of lines 187-189 of version 0.2.2: a full-URL shaped
attribute is used verbatim; otherwise `new URL(srcAttr, document.baseURI).href`
is evaluated — outside the try/catch, so `none` here models an exception
escaping `connectedCallback`. -/
def candidateV2 (env : Env) (srcAttr : String) : Option String :=
  if isFullUrl srcAttr then some srcAttr else env.resolveUrl srcAttr env.baseURI

/-- Embedding of version 0.2.2 `connectedCallback` (lines 173-231): missing
`src` renders an error; the dedup check consults the raw attribute; the URL
candidate is computed before the try block (`Outcome.uncaught` when that
throws); fetch failure is caught and reported; on success `_insertContent`
is awaited and the resolved candidate — not the raw attribute — is added to
`includedSources`. -/
def runV2 (env : Env) (st : St) (ph : Placeholder) : RunRes :=
  match ph.src with
  | none => ⟨st, Outcome.errorShown, [Ev.errorRendered], []⟩
  | some srcAttr =>
    if !ph.multiple && st.includedSources.contains srcAttr then
      ⟨st, Outcome.skippedDuplicate, [], []⟩
    else
      match candidateV2 env srcAttr with
      | none => ⟨st, Outcome.uncaught, [], []⟩
      | some cand =>
        match env.fetchBody cand with
        | none =>
          ⟨st, Outcome.errorShown,
            [Ev.fetchIssued cand, Ev.errorRendered, Ev.consoleError], []⟩
        | some body =>
          let g := gatedHtml env ph (isExternalReference env cand) body
          let r := insertContentV2 env st.loadedScripts (env.parseHtml g.1) cand
          if r.ok then
            ⟨⟨cand :: st.includedSources, r.loaded⟩, Outcome.included,
              Ev.fetchIssued cand :: g.2 ++ r.evs, []⟩
          else
            ⟨⟨st.includedSources, r.loaded⟩, Outcome.errorShown,
              Ev.fetchIssued cand :: g.2 ++ r.evs ++ [Ev.errorRendered, Ev.consoleError], []⟩

/-- Does the first list occur as a final segment of the second? -/
def endsL (suf s : List Char) : Bool := startsL suf.reverse s.reverse

/-- Embedding of `.replace(/\/$/, '')` (line 367): remove one trailing
slash. -/
def stripTrailingSlash (s : String) : String :=
  match s.data.getLast? with
  | some c => if c = '/' then String.mk s.data.dropLast else s
  | none => s

/-- Embedding of lines 370-372 of the second v0.2.1 block: the first
nonempty segment of `window.location.pathname` is taken as the repository
name when it does not look like a file (the regex `/\.[^/]+$/` matches
exactly when the segment has a `.` before its last character). -/
def ghRepoOf (pathname : String) : Option String :=
  let seg := (pathname.data.dropWhile (fun c => c = '/')).takeWhile (fun c => c ≠ '/')
  if seg ≠ [] ∧ ¬(seg.dropLast.contains '.') then some (String.mk seg) else none

/-- Embedding of the resolution block of the second v0.2.1 variant (lines
357-381), which runs before that variant's try/catch: a full-URL shaped
source is used verbatim; a root-relative source is resolved by string
concatenation (against the stripped `<base>` href when one is present,
else with the GitHub-Pages repository segment on `*.github.io` hosts, else
against the origin), which cannot throw; any other source evaluates
`new URL(src, document.baseURI).href`, whose failure (`none`) models an
exception thrown before the try block. -/
def resolveV3 (env : Env) (src : String) : Option String :=
  if isFullUrl src then some src
  else if startsL ['/'] src.data then
    match env.baseTagHref with
    | some bh => some (stripTrailingSlash bh ++ src)
    | none =>
      if endsL ".github.io".data env.hostname.data then
        match ghRepoOf env.pathname with
        | some repo => some (env.origin ++ "/" ++ repo ++ src)
        | none => some (env.origin ++ src)
      else some (env.origin ++ src)
  else env.resolveUrl src env.baseURI

/-- Embedding of `connectedCallback` of the second v0.2.1 block (lines
353-410): missing `src` renders an error; the URL is resolved before the
try block (`Outcome.uncaught` when that throws); the dedup check — here
keyed on the resolved URL — follows resolution; the try block then
proceeds as in the first v0.2.1 block (fetch, sanitize gate, optional
`executeScripts`, `replaceWith`, and the resolved URL is added to
`includedSources`). -/
def runV3 (env : Env) (st : St) (ph : Placeholder) : RunRes :=
  match ph.src with
  | none => ⟨st, Outcome.errorShown, [Ev.errorRendered], []⟩
  | some src =>
    match resolveV3 env src with
    | none => ⟨st, Outcome.uncaught, [], []⟩
    | some srcUrl =>
      if !ph.multiple && st.includedSources.contains srcUrl then
        ⟨st, Outcome.skippedDuplicate, [], []⟩
      else
        match env.fetchBody srcUrl with
        | none =>
          ⟨st, Outcome.errorShown,
            [Ev.fetchIssued srcUrl, Ev.errorRendered, Ev.consoleError], []⟩
        | some body =>
          let g := gatedHtml env ph (isExternalReference env srcUrl) body
          ⟨⟨srcUrl :: st.includedSources, st.loadedScripts⟩, Outcome.included,
            Ev.fetchIssued srcUrl :: g.2,
            if ph.allowScripts then execScriptsV1 env (scriptsOf (env.parseHtml g.1)) else []⟩

/-- Modelled from the spec: the error reporter of the v0.1 attribute-based
variant, whose implementation is absent from the sources (only its README
is present): it renders a red error message in the element, logs a console
diagnostic, and shows a blocking alert exactly when the global verbosity
flag `window.verbose` is set; it is a total function (never throws). -/
structure Report where
  rendered : String
  logged : Bool
  alerted : Bool

/-- Modelled from the spec: `report(placeholder, declaredSource, error)` of
the v0.1 variant (see `Report`). -/
def reportFailure (verbose : Bool) (message : String) : Report :=
  ⟨showError message, true, verbose⟩

/-- Empty initial registries (module initialization). -/
def st0 : St := ⟨[], []⟩

/-- A same-origin page at `https://example.com/page.html` serving
`header.html`, with no `<base>` element, no DOMPurify, and a trivial parse
of the served body. -/
def envHeader : Env :=
  ⟨"https://example.com/page.html", "https://example.com", "example.com", "/page.html", none,
    urlResolveDemo, urlOriginDemo,
    (fun u => if u = "https://example.com/header.html" then some "<p>hi</p>" else none),
    none,
    (fun s => if s = "<p>hi</p>" then [Node.text "<p>hi</p>"] else []),
    (fun _ => true), []⟩

/-- A placeholder declaring `src="header.html"` with no modifier attributes. -/
def phHeader : Placeholder := ⟨some "header.html", false, false, false⟩

/-- A page serving `frag.html` whose fragment is a single inline script. -/
def envFrag : Env :=
  ⟨"https://example.com/page.html", "https://example.com", "example.com", "/page.html", none,
    urlResolveDemo, urlOriginDemo,
    (fun u => if u = "https://example.com/frag.html" then some "<script>doEvil()</script>" else none),
    none,
    (fun s => if s = "<script>doEvil()</script>" then [Node.inlineScript "doEvil()"] else []),
    (fun _ => true), []⟩

/-- A placeholder declaring `src="frag.html"` without `allow-scripts`. -/
def phFrag : Placeholder := ⟨some "frag.html", false, false, false⟩

/-- A page serving `mix.html` whose fragment is an inline script followed
by an external script. -/
def envMix : Env :=
  ⟨"https://example.com/page.html", "https://example.com", "example.com", "/page.html", none,
    urlResolveDemo, urlOriginDemo,
    (fun u => if u = "https://example.com/mix.html" then some "MIX" else none),
    none,
    (fun s => if s = "MIX" then [Node.inlineScript "first()", Node.extScript "late.js"] else []),
    (fun _ => true), []⟩

/-- A placeholder declaring `src="mix.html"` with `allow-scripts`. -/
def phMix : Placeholder := ⟨some "mix.html", false, false, true⟩

/-- A page on which every fetch fails and nothing is served. -/
def envBare : Env :=
  ⟨"https://example.com/page.html", "https://example.com", "example.com", "/page.html", none,
    urlResolveDemo, urlOriginDemo, (fun _ => none), none, (fun _ => []),
    (fun _ => true), []⟩

/-- A placeholder whose `src` has a scheme the `isFullUrl` regex misses
(`+` is not a `\w` character) and whose authority contains a space, on
which the URL constructor throws. -/
def phBadUrl : Placeholder := ⟨some "a+b://exa mple", false, false, false⟩

/-- A page at `https://example.com/sub/page.html` (document base in a
subdirectory), no `<base>` element. -/
def envSub : Env :=
  ⟨"https://example.com/sub/page.html", "https://example.com", "example.com", "/sub/page.html", none,
    urlResolveDemo, urlOriginDemo, (fun _ => none), none, (fun _ => []),
    (fun _ => true), []⟩

/-- A page serving `w.html` whose fragment is text followed by an external
script. -/
def envW : Env :=
  ⟨"https://example.com/page.html", "https://example.com", "example.com", "/page.html", none,
    urlResolveDemo, urlOriginDemo,
    (fun u => if u = "https://example.com/w.html" then some "W" else none),
    none,
    (fun s => if s = "W" then [Node.text "hello", Node.extScript "x.js"] else []),
    (fun _ => true), []⟩

/-- A placeholder declaring `src="w.html"`. -/
def phW : Placeholder := ⟨some "w.html", false, false, true⟩

/-- A placeholder declaring `src="missing.html"` (nothing serves it). -/
def phMissing : Placeholder := ⟨some "missing.html", false, false, false⟩

example : isFullUrl "header.html" = false := by decide
example : isFullUrl "https://x.y/z" = true := by decide
example : isFullUrl "//cdn.x/z" = true := by decide
example : isFullUrl "a+b://exa mple" = false := by decide
example : urlResolveDemo "header.html" "https://example.com/page.html"
    = some "https://example.com/header.html" := by decide
example : urlResolveDemo "a.html" "https://example.com/sub/page.html"
    = some "https://example.com/sub/a.html" := by decide
example : urlResolveDemo "a.html" "https://example.com"
    = some "https://example.com/a.html" := by decide
example : urlResolveDemo "a+b://exa mple" "https://example.com/page.html" = none := by decide
example : (runV2 envHeader st0 phHeader).outcome = Outcome.included := by decide
example : (runV2 envHeader (runV2 envHeader st0 phHeader).st phHeader).outcome
    = Outcome.included := by decide
example : (runV2 envFrag st0 phFrag).evs =
    [Ev.fetchIssued "https://example.com/frag.html",
     Ev.replaced [], Ev.inlineExec "doEvil()"] := by decide
example : (runV1 envMix st0 phMix).scriptEvs =
    [Ev.inlineExec "first()", Ev.extLoadStart "late.js", Ev.extSettled "late.js" true] := by decide
example : (runV2 envBare st0 phBadUrl).outcome = Outcome.uncaught := by decide
example : (runV2 envW st0 phW).evs =
    [Ev.fetchIssued "https://example.com/w.html",
     Ev.extLoadStart "https://example.com/x.js",
     Ev.extSettled "https://example.com/x.js" true,
     Ev.replaced [Node.text "hello"]] := by decide
example : (runV1 envBare st0 phMissing).evs =
    [Ev.fetchIssued "https://example.com/missing.html",
     Ev.errorRendered, Ev.consoleError] := by decide
example : resolveV1 envSub "a.html" = some "https://example.com/a.html" := by decide

/-- A GitHub-Pages project site at
`https://matttoegel.github.io/micro-include/index.html`, no `<base>`
element, nothing served. -/
def envGh : Env :=
  ⟨"https://matttoegel.github.io/micro-include/index.html", "https://matttoegel.github.io",
    "matttoegel.github.io", "/micro-include/index.html", none,
    urlResolveDemo, urlOriginDemo, (fun _ => none), none, (fun _ => []),
    (fun _ => true), []⟩

example : resolveV3 envGh "/partials/h.html"
    = some "https://matttoegel.github.io/micro-include/partials/h.html" := by decide
example : resolveV3 envBare "/x.html" = some "https://example.com/x.html" := by decide
example : resolveV3 envBare "header.html" = some "https://example.com/header.html" := by decide
example : resolveV3 envBare "a+b://exa mple" = none := by decide
example : (runV3 envBare st0 phBadUrl).outcome = Outcome.uncaught := by decide

/-- Is the event an external-script load event (start or settle)? -/
def isExtEv : Ev → Bool
  | Ev.extLoadStart _ => true
  | Ev.extSettled _ _ => true
  | _ => false

/-- Is the event an inline-script execution? -/
def isInlineEv : Ev → Bool
  | Ev.inlineExec _ => true
  | _ => false

/-- Is the event the replacement of the placeholder? -/
def isReplaceEv : Ev → Bool
  | Ev.replaced _ => true
  | _ => false

/-- Is the event part of the external-script phase (a load event or the
per-script failure log)? -/
def isScriptPhaseEv (e : Ev) : Bool := isExtEv e || e == Ev.consoleError

/-- `allBefore p q tr` holds when no `p`-event occurs strictly after a
`q`-event in the trace: every `p`-event precedes every `q`-event. -/
def allBefore (p q : Ev → Bool) : List Ev → Bool
  | [] => true
  | e :: rest => (!q e || rest.all (fun x => !p x)) && allBefore p q rest

/-- A trace of external-script events is strictly sequential: it is a
sequence of `extLoadStart u` immediately followed by a settle of the same
`u`, so each script settles before the next load begins. -/
def seqOk : List Ev → Bool
  | [] => true
  | Ev.extLoadStart u :: Ev.extSettled v _ :: rest => u == v && seqOk rest
  | _ => false

theorem allBefore_append (p q : Ev → Bool) (A B : List Ev)
    (hA : A.all (fun e => !q e) = true) (hB : allBefore p q B = true) :
    allBefore p q (A ++ B) = true := by
  induction A with
  | nil => simpa using hB
  | cons a A ih =>
    simp only [List.all_cons, Bool.and_eq_true] at hA
    simp [allBefore, hA.1, ih hA.2]

theorem allBefore_of_no_p (p q : Ev → Bool) (B : List Ev)
    (h : B.all (fun e => !p e) = true) : allBefore p q B = true := by
  induction B with
  | nil => simp [allBefore]
  | cons b B ih =>
    simp only [List.all_cons, Bool.and_eq_true] at h
    simp [allBefore, h.2, ih h.2]

theorem allBefore_of_no_q (p q : Ev → Bool) (B : List Ev)
    (h : B.all (fun e => !q e) = true) : allBefore p q B = true := by
  induction B with
  | nil => simp [allBefore]
  | cons b B ih =>
    simp only [List.all_cons, Bool.and_eq_true] at h
    simp [allBefore, h.1, ih h.2]

theorem loadExternalsV2_evs_phase (env : Env) (baseUrl : String) :
    ∀ ext loaded, ((loadExternalsV2 env baseUrl loaded ext).evs).all isScriptPhaseEv = true := by
  intro ext
  induction ext with
  | nil => intro loaded; simp [loadExternalsV2]
  | cons s rest ih =>
    intro loaded
    simp only [loadExternalsV2]
    split
    · simp
    · next r heq =>
      split
      · exact ih loaded
      · split
        · simpa [isScriptPhaseEv, isExtEv] using ih (r :: loaded)
        · simpa [isScriptPhaseEv, isExtEv] using ih loaded

theorem scriptPhase_not_inline {e : Ev} (h : isScriptPhaseEv e = true) :
    isInlineEv e = false := by
  cases e <;> simp_all [isScriptPhaseEv, isExtEv, isInlineEv]

theorem scriptPhase_not_replace {e : Ev} (h : isScriptPhaseEv e = true) :
    isReplaceEv e = false := by
  cases e <;> simp_all [isScriptPhaseEv, isExtEv, isReplaceEv]

theorem loadExternalsV2_evs_no_inline (env : Env) (baseUrl : String)
    (ext loaded : List String) :
    ((loadExternalsV2 env baseUrl loaded ext).evs).all (fun e => !isInlineEv e) = true := by
  have h := loadExternalsV2_evs_phase env baseUrl ext loaded
  rw [List.all_eq_true] at h ⊢
  intro x hx
  simp [scriptPhase_not_inline (h x hx)]

theorem loadExternalsV2_evs_no_replace (env : Env) (baseUrl : String)
    (ext loaded : List String) :
    ((loadExternalsV2 env baseUrl loaded ext).evs).all (fun e => !isReplaceEv e) = true := by
  have h := loadExternalsV2_evs_phase env baseUrl ext loaded
  rw [List.all_eq_true] at h ⊢
  intro x hx
  simp [scriptPhase_not_replace (h x hx)]

theorem map_inlineExec_all_not_ext (l : List String) :
    ((l.map Ev.inlineExec).all (fun e => !isExtEv e)) = true := by
  induction l <;> simp_all [isExtEv]

theorem map_inlineExec_all_not_replace (l : List String) :
    ((l.map Ev.inlineExec).all (fun e => !isReplaceEv e)) = true := by
  induction l <;> simp_all [isReplaceEv]

theorem map_inlineExec_all_inline (l : List String) :
    ((l.map Ev.inlineExec).all isInlineEv) = true := by
  induction l <;> simp_all [isInlineEv]

theorem loadExternalsV2_seq (env : Env) (baseUrl : String) :
    ∀ ext loaded,
      seqOk (((loadExternalsV2 env baseUrl loaded ext).evs).filter isExtEv) = true := by
  intro ext
  induction ext with
  | nil => intro loaded; simp [loadExternalsV2, seqOk]
  | cons s rest ih =>
    intro loaded
    simp only [loadExternalsV2]
    split
    · simp [seqOk]
    · next r heq =>
      split
      · exact ih loaded
      · split
        · simpa [List.filter_cons, isExtEv, seqOk] using ih (r :: loaded)
        · simpa [List.filter_cons, isExtEv, seqOk] using ih loaded

theorem execScriptsV1_seq (env : Env) :
    ∀ ns, seqOk ((execScriptsV1 env ns).filter isExtEv) = true := by
  intro ns
  induction ns with
  | nil => simp [execScriptsV1, seqOk]
  | cons n rest ih =>
    cases n with
    | text s => simpa [execScriptsV1] using ih
    | extScript s =>
      cases hok : env.scriptLoadOk s with
      | true => simp [execScriptsV1, hok, List.filter_cons, isExtEv, seqOk, ih]
      | false => simp [execScriptsV1, hok, List.filter_cons, isExtEv, seqOk]
    | inlineScript c =>
      simpa [execScriptsV1, List.filter_cons, isExtEv] using ih

theorem insertContentV2_evs_ok (env : Env) (loaded : List String)
    (nodes : List Node) (baseUrl : String)
    (h : (insertContentV2 env loaded nodes baseUrl).ok = true) :
    (insertContentV2 env loaded nodes baseUrl).evs
      = (loadExternalsV2 env baseUrl loaded (externalSrcs nodes)).evs
        ++ Ev.replaced (stripScripts nodes) :: (inlineCodes nodes).map Ev.inlineExec := by
  unfold insertContentV2 at h ⊢
  cases hok : (loadExternalsV2 env baseUrl loaded (externalSrcs nodes)).ok with
  | true => simp [hok]
  | false => simp [hok] at h

theorem insertContentV2_evs_err (env : Env) (loaded : List String)
    (nodes : List Node) (baseUrl : String)
    (h : (insertContentV2 env loaded nodes baseUrl).ok = false) :
    (insertContentV2 env loaded nodes baseUrl).evs
      = (loadExternalsV2 env baseUrl loaded (externalSrcs nodes)).evs := by
  unfold insertContentV2 at h ⊢
  cases hok : (loadExternalsV2 env baseUrl loaded (externalSrcs nodes)).ok with
  | true => simp [hok] at h
  | false => simp [hok]

theorem insertContentV2_ext_before_inline (env : Env) (loaded : List String)
    (nodes : List Node) (baseUrl : String) :
    allBefore isExtEv isInlineEv (insertContentV2 env loaded nodes baseUrl).evs = true := by
  cases hok : (insertContentV2 env loaded nodes baseUrl).ok with
  | true =>
    rw [insertContentV2_evs_ok env loaded nodes baseUrl hok]
    refine allBefore_append _ _ _ _ (loadExternalsV2_evs_no_inline env baseUrl _ _) ?_
    have : allBefore isExtEv isInlineEv ((inlineCodes nodes).map Ev.inlineExec) = true :=
      allBefore_of_no_p _ _ _ (map_inlineExec_all_not_ext _)
    simp [allBefore, isInlineEv, this]
  | false =>
    rw [insertContentV2_evs_err env loaded nodes baseUrl hok]
    exact allBefore_of_no_q _ _ _ (loadExternalsV2_evs_no_inline env baseUrl _ _)

theorem injectInlines_eq (pre post : List Node) :
    ∀ codes mid, injectInlines pre mid post codes
      = pre ++ mid ++ codes.map Node.inlineScript ++ post := by
  intro codes
  induction codes with
  | nil => intro mid; simp [injectInlines]
  | cons c cs ih =>
    intro mid
    simp [injectInlines, ih (mid ++ [Node.inlineScript c])]

theorem filter_eq_nil_of_all_not (p : Ev → Bool) (l : List Ev)
    (h : l.all (fun e => !p e) = true) : l.filter p = [] := by
  induction l with
  | nil => rfl
  | cons a l ih =>
    simp only [List.all_cons, Bool.and_eq_true, Bool.not_eq_true'] at h
    rw [List.filter_cons, if_neg (by simp [h.1]), ih (by simpa using h.2)]

/-- C1: in version 0.2.2 the dedup check consults the raw `src` attribute
while the registry records the resolved URL, so two placeholders with the
same relative source both fetch and insert: the second is not skipped and
a second network request is issued for the same canonical URL. -/
theorem dedup_misses_relative_duplicate :
    (runV2 envHeader st0 phHeader).outcome = Outcome.included
    ∧ (runV2 envHeader st0 phHeader).st.includedSources = ["https://example.com/header.html"]
    ∧ (runV2 envHeader (runV2 envHeader st0 phHeader).st phHeader).outcome = Outcome.included
    ∧ Ev.fetchIssued "https://example.com/header.html"
        ∈ (runV2 envHeader (runV2 envHeader st0 phHeader).st phHeader).evs := by
  exact ⟨by decide, by decide, by decide, by decide⟩

/-- C2: version 0.2.2 loads and executes the scripts of a fetched fragment
unconditionally — a placeholder without `allow-scripts` still has the
fragment's inline script injected — while version 0.2.1 gates
`executeScripts` on the attribute and runs nothing without it. -/
theorem scripts_run_without_allow_scripts :
    phFrag.allowScripts = false
    ∧ Ev.inlineExec "doEvil()" ∈ (runV2 envFrag st0 phFrag).evs
    ∧ (runV1 envFrag st0 phFrag).scriptEvs = [] := by
  exact ⟨rfl, by decide, by decide⟩

/-- C3: in both versions the `includedSources` registry is left unchanged
on every outcome other than a successful inclusion — in particular on a
failed fetch — so a source is recorded only after the fragment has been
spliced in, and a later placeholder with the same source still fetches. -/
theorem registry_unchanged_unless_included (env : Env) (st : St) (ph : Placeholder) :
    ((runV1 env st ph).st.includedSources = st.includedSources
      ∨ (runV1 env st ph).outcome = Outcome.included)
    ∧ ((runV2 env st ph).st.includedSources = st.includedSources
      ∨ (runV2 env st ph).outcome = Outcome.included) := by
  constructor
  · unfold runV1
    split
    · simp
    · split
      · simp
      · split
        · simp
        · split
          · simp
          · simp
  · unfold runV2
    split
    · simp
    · split
      · simp
      · split
        · simp
        · next _ cand heqc =>
          split
          · simp
          · next _ body heqb =>
            by_cases hok : (insertContentV2 env st.loadedScripts
                (env.parseHtml (gatedHtml env ph (isExternalReference env cand) body).1)
                cand).ok = true
            · simp [hok]
            · simp [hok]

/-- C4: the fetched text is passed through the sanitizer exactly when the
placeholder lacks `allow-untrusted` and the source is an external (cross
origin) reference; with `allow-untrusted`, or for a same-origin source, it
is used verbatim with no sanitizer event; and when DOMPurify is absent the
gated call returns the text unmodified and emits the warning diagnostic. -/
theorem sanitize_gate_spec (env : Env) (ph : Placeholder) (isExt : Bool) (body : String) :
    (ph.allowUntrusted = false → isExt = true →
        (∀ f, env.purify = some f → gatedHtml env ph isExt body = (f body, [Ev.sanitized]))
        ∧ (env.purify = none → gatedHtml env ph isExt body = (body, [Ev.warned])))
    ∧ (ph.allowUntrusted = true → gatedHtml env ph isExt body = (body, []))
    ∧ (isExt = false → gatedHtml env ph isExt body = (body, [])) := by
  refine ⟨fun hu hx => ⟨fun f hf => ?_, fun hn => ?_⟩, fun hu => ?_, fun hx => ?_⟩ <;>
    simp [gatedHtml, sanitizeHtml, *]

theorem sanitize_gate_spec_witness :
    gatedHtml envBare phMissing true "<b>t</b>" = ("<b>t</b>", [Ev.warned]) :=
  ((sanitize_gate_spec envBare phMissing true "<b>t</b>").1 rfl rfl).2 rfl

/-- C5 counterexample: with `allow-scripts` set, version 0.2.1's
`executeScripts` processes scripts in document order, so a fragment whose
inline script precedes its external script executes the inline script
before the external script has settled — refuting, as stated, that every
external script settles before any inline script executes. -/
theorem inline_runs_before_external_settles :
    phMix.allowScripts = true
    ∧ allBefore isExtEv isInlineEv (runV1 envMix st0 phMix).scriptEvs = false := by
  exact ⟨rfl, by decide⟩

/-- C5 amended: external script loads are strictly sequential in both
pipelines (each load settles before the next begins); in the version 0.2.2
`_insertContent` pipeline every external script additionally settles before
any inline script executes, while version 0.2.1's `executeScripts` runs
scripts in fragment order, so an inline script may execute before a later
external script settles. -/
theorem script_ordering_amended :
    (∀ env ns, seqOk ((execScriptsV1 env ns).filter isExtEv) = true)
    ∧ (∀ env baseUrl loaded ext,
        seqOk (((loadExternalsV2 env baseUrl loaded ext).evs).filter isExtEv) = true)
    ∧ (∀ env loaded ns baseUrl,
        allBefore isExtEv isInlineEv (insertContentV2 env loaded ns baseUrl).evs = true) :=
  ⟨execScriptsV1_seq,
    fun env baseUrl loaded ext => loadExternalsV2_seq env baseUrl ext loaded,
    insertContentV2_ext_before_inline⟩

/-- C7: version 0.2.1 resolves a relative source against
`window.location.origin` when no `<base>` element is present, not against
the document's base URL, so for a page in a subdirectory the resolved URL
differs from the standard resolution result; version 0.2.2 resolves the
same source exactly as the standard algorithm against `document.baseURI`. -/
theorem v1_relative_resolution_ignores_document_base :
    resolveV1 envSub "a.html" = some "https://example.com/a.html"
    ∧ urlResolveDemo "a.html" envSub.baseURI = some "https://example.com/sub/a.html"
    ∧ resolveV1 envSub "a.html" ≠ urlResolveDemo "a.html" envSub.baseURI
    ∧ candidateV2 envSub "a.html" = urlResolveDemo "a.html" envSub.baseURI := by
  exact ⟨by decide, by decide, by decide, by decide⟩

/-- C8 counterexample: in version 0.2.2 `_insertContent` a fragment with an
external script has the script's load begin, and settle, before the
placeholder is replaced — refuting that replacement precedes any external
script loading. -/
theorem replacement_after_external_loads :
    allBefore isReplaceEv isExtEv (runV2 envW st0 phW).evs = false := by
  decide

/-- C8 amended: within one successful version 0.2.2 insertion, all external
script loading from the fragment settles before the placeholder is
replaced; the replacement event carries exactly the fragment's
script-stripped child nodes in order; inline scripts are injected only
after the replacement; and the resulting document places the stripped
nodes at the placeholder's position followed by the inline scripts in
fragment order. -/
theorem insert_order_amended :
    (∀ env loaded ns baseUrl, (insertContentV2 env loaded ns baseUrl).ok = true →
        allBefore isExtEv isReplaceEv (insertContentV2 env loaded ns baseUrl).evs = true
        ∧ allBefore isReplaceEv isInlineEv (insertContentV2 env loaded ns baseUrl).evs = true
        ∧ (insertContentV2 env loaded ns baseUrl).evs.filter isReplaceEv
            = [Ev.replaced (stripScripts ns)])
    ∧ (∀ pre post ns, domAfterInsertV2 pre post ns
        = pre ++ stripScripts ns ++ (inlineCodes ns).map Node.inlineScript ++ post) := by
  constructor
  · intro env loaded ns baseUrl hok
    rw [insertContentV2_evs_ok env loaded ns baseUrl hok]
    refine ⟨?_, ?_, ?_⟩
    · refine allBefore_append _ _ _ _ (loadExternalsV2_evs_no_replace env baseUrl _ _) ?_
      simp only [allBefore, isReplaceEv, Bool.not_true, Bool.false_or, Bool.and_eq_true]
      exact ⟨map_inlineExec_all_not_ext _,
        allBefore_of_no_q _ _ _ (map_inlineExec_all_not_replace _)⟩
    · refine allBefore_append _ _ _ _ (loadExternalsV2_evs_no_inline env baseUrl _ _) ?_
      simp only [allBefore, isInlineEv, Bool.not_false, Bool.true_or, Bool.true_and]
      exact allBefore_of_no_p _ _ _ (map_inlineExec_all_not_replace _)
    · rw [List.filter_append,
        filter_eq_nil_of_all_not _ _ (loadExternalsV2_evs_no_replace env baseUrl _ _),
        List.filter_cons]
      simp [isReplaceEv, filter_eq_nil_of_all_not _ _ (map_inlineExec_all_not_replace _)]
  · intro pre post ns
    exact injectInlines_eq pre post (inlineCodes ns) (stripScripts ns)

theorem insert_order_amended_witness :
    allBefore isExtEv isReplaceEv
      (insertContentV2 envW [] [Node.text "hello", Node.extScript "x.js"]
        "https://example.com/w.html").evs = true :=
  (insert_order_amended.1 envW [] [Node.text "hello", Node.extScript "x.js"]
    "https://example.com/w.html" (by decide)).1

/-- C9: on every terminal failure with a declared source, version 0.2.1
renders the error (via `showError`) and logs a console diagnostic while
leaving the registries untouched, and the reporter of the v0.1 variant
(modelled from the spec, see `reportFailure`) renders the red message of
`showError`, always logs, and raises the blocking alert exactly when the
global verbosity flag is set; all reporting functions are total. -/
theorem failure_reporting :
    (∀ env st ph s, ph.src = some s → (runV1 env st ph).outcome = Outcome.errorShown →
        Ev.errorRendered ∈ (runV1 env st ph).evs
        ∧ Ev.consoleError ∈ (runV1 env st ph).evs
        ∧ (runV1 env st ph).st = st)
    ∧ (∀ verbose message,
        (reportFailure verbose message).alerted = verbose
        ∧ (reportFailure verbose message).logged = true
        ∧ (reportFailure verbose message).rendered = showError message) := by
  constructor
  · intro env st ph s hs
    unfold runV1
    split
    · next heq => rw [hs] at heq; exact absurd heq (by simp)
    · split
      · intro h; simp at h
      · split
        · intro _; simp
        · split
          · intro _; simp
          · intro h; simp at h
  · intro verbose message
    exact ⟨rfl, rfl, rfl⟩

theorem failure_reporting_witness :
    Ev.consoleError ∈ (runV1 envBare st0 phMissing).evs :=
  ((failure_reporting.1 envBare st0 phMissing "missing.html" rfl (by decide)).2).1

/-- C10: when the URL constructor fails on the source (against the document
base), `isExternalReference` catches the failure and returns `false`, so
the source is treated as same-origin and the sanitization gate passes the
body through verbatim with no sanitizer or warning event. -/
theorem unparseable_source_is_internal (env : Env) (src : String)
    (h : env.urlOriginOf src env.baseURI = none) :
    isExternalReference env src = false
    ∧ ∀ ph body, gatedHtml env ph (isExternalReference env src) body = (body, []) := by
  have hx : isExternalReference env src = false := by
    unfold isExternalReference
    rw [h]
  refine ⟨hx, fun ph body => ?_⟩
  rw [hx]
  simp [gatedHtml]

theorem unparseable_source_is_internal_witness :
    isExternalReference envBare "a+b://exa mple" = false :=
  (unparseable_source_is_internal envBare "a+b://exa mple" (by decide)).1

end MicroInclude
